import Mathlib

/-!
# A shallow embedding of `src/main.py` (publish-once scheduler)

The program scans a Google Drive folder for `.docx` files, converts the
first not-yet-published one to HTML, posts it to a WordPress endpoint and
records the published id in a JSON ledger (`published.json`) stored on
Drive.

External collaborators (the Drive API, `python-docx`, `requests`,
`datetime`) are modelled as oracles gathered in `Env`; a Python exception
raised by an external call is an `Except.error`, and `main` returning
`Except.error` means that exception escaped `main` uncaught.  Machine-level
details that no claim touches (byte contents, HTTP headers, the fixed
`status`/`categories` fields of the POST payload) are left opaque.
-/

namespace Publicare

/-- JSON values, the type of the persisted ledger object `published.json`
(what Python's `json.load` can return, with numbers collapsed to `Int`). -/
inductive Json where
  | null
  | bool (b : Bool)
  | num (n : Int)
  | str (s : String)
  | arr (elems : List Json)
  | obj (fields : List (String × Json))

/-- A Python dict with string keys, as produced by `json.load` on a JSON
object: an association list whose keys are unique, first binding found wins. -/
abbrev PyDict := List (String × Json)

/-- Raw byte content of a downloaded file; opaque to every claim. -/
abbrev Bytes := List Nat

/-- Python `t == j` for a `str` value `t`: true exactly when `j` is an equal
string (a Python `str` is never `==` to a value of another JSON type). -/
def strEqJson (t : String) : Json → Bool
  | Json.str s => t = s
  | _ => false

/-- Python `x in container` for a string `x`: equality membership in a list,
substring test in a string, key membership in a dict, `TypeError` otherwise. -/
def pyIn (x : String) : Json → Except String Bool
  | Json.arr elems => .ok (elems.any (strEqJson x))
  | Json.str s => .ok ((s.toList.tails).any (fun t => x.toList.isPrefixOf t))
  | Json.obj fields => .ok (fields.any (fun kv => kv.1 = x))
  | _ => .error "TypeError: argument is not iterable"

/-- Python `container.append(x)`: appends to a list, `AttributeError` on any
other type. -/
def pyAppend (container : Json) (x : Json) : Except String Json :=
  match container with
  | Json.arr elems => .ok (Json.arr (elems ++ [x]))
  | _ => .error "AttributeError: no attribute append"

/-- Key lookup in a Python dict (first binding wins; `json.load` produces
unique keys). -/
def dictLookup : PyDict → String → Option Json
  | [], _ => none
  | (k, v) :: rest, key => if k = key then some v else dictLookup rest key

/-- Python `d.get(key, dfl)`. -/
def dictGet (d : PyDict) (key : String) (dfl : Json) : Json :=
  (dictLookup d key).getD dfl

/-- Python `d[key] = v`: overwrite the binding in place, or append a fresh
binding at the end (Python dicts keep insertion order). -/
def dictSet : PyDict → String → Json → PyDict
  | [], key, v => [(key, v)]
  | (k, w) :: rest, key, v =>
      if k = key then (key, v) :: rest else (k, w) :: dictSet rest key v

/-- One entry of the Drive listing (`files(id, name)`), src/main.py line 64. -/
structure DriveFile where
  id : String
  name : String

/-- Oracles for the external collaborators of one run of `main`. -/
structure Env where
  /-- Result of downloading and `json.load`-ing `published.json`
  (src/main.py lines 31-38); an error is a raised exception. -/
  loadRaw : Except String Json
  /-- The `service.files().update(...)` upload replacing `published.json`
  (line 56); an error is a raised exception. -/
  save : Json → Except String Unit
  /-- Result of `list_docx_files` (lines 61-66); an error is a raised
  exception of the `.execute()` call. -/
  listFiles : Except String (List DriveFile)
  /-- `download_file` content per file id (lines 69-76). -/
  download : String → Except String Bytes
  /-- `Document(BytesIO(content_bytes))` of python-docx (line 80), reduced to
  the list of paragraph texts; an error is a parse exception. -/
  parseDocx : Bytes → Except String (List String)
  /-- `requests.post(WP_URL, auth=..., json=data)` (lines 95-99), reduced to
  the HTTP status code of the response; an error is a transport exception. -/
  post : String → String → Except String Nat
  /-- `datetime.now().strftime` with the `%Y-%m-%d` format (line 114). -/
  today : String

/-- `load_published` (src/main.py lines 29-50).  Any exception while
downloading or parsing is caught and replaced by the default dict; a JSON
list is upgraded to the structured dict; a dict is returned as is; any other
JSON type yields the default dict.  The empty string is the program's
encoding of an absent `last_published_date`. -/
def load_published (downloaded : Except String Json) : PyDict :=
  match downloaded with
  | .error _ =>
      [("published_ids", Json.arr []), ("last_published_date", Json.str "")]
  | .ok (Json.arr elems) =>
      [("published_ids", Json.arr elems), ("last_published_date", Json.str "")]
  | .ok (Json.obj fields) => fields
  | .ok _ =>
      [("published_ids", Json.arr []), ("last_published_date", Json.str "")]

/-- `save_published` (src/main.py lines 52-58): serialize `published_data`
and upload it; any exception is caught and only logged.  Returns whether the
upload succeeded (the Python function returns `None`; the outcome is
observable only through the durable object). -/
def save_published (upload : Json → Except String Unit) (published_data : PyDict) : Bool :=
  match upload (Json.obj published_data) with
  | .ok _ => true
  | .error _ => false

/-- Truthiness of `para.text.strip()` (line 83): the text contains at least
one non-whitespace character.  (Python strips a slightly larger whitespace
set than `Char.isWhitespace`; the difference is irrelevant to the claims.) -/
def stripNonempty (s : String) : Bool :=
  s.toList.any (fun c => !c.isWhitespace)

/-- One iteration of the paragraph loop of `docx_to_html` (src/main.py lines
82-84): append a paragraph element when the text survives the `strip()`
test, interpolating the text verbatim. -/
def htmlStep (html t : String) : String :=
  if stripNonempty t then html ++ ("<p>" ++ t ++ "</p>\n") else html

/-- The accumulation loop of `docx_to_html` (src/main.py lines 81-85) on the
paragraph texts: start from `""` and run `htmlStep` over the paragraphs in
document order. -/
def htmlOfParagraphs (paras : List String) : String :=
  paras.foldl htmlStep ""

/-- `docx_to_html` (src/main.py lines 79-85): parse the bytes with the
external python-docx parser (the oracle), then run the paragraph loop.
There is no try/except here: a parse exception propagates. -/
def docx_to_html (parse : Bytes → Except String (List String)) (content_bytes : Bytes) :
    Except String String :=
  match parse content_bytes with
  | .error e => .error e
  | .ok paras => .ok (htmlOfParagraphs paras)

/-- `publish_to_wp` (src/main.py lines 88-105): POST the payload; status 201
returns `True`, every other status returns `False`.  There is no try/except
here: a transport exception of `requests.post` propagates. -/
def publish_to_wp (post : String → String → Except String Nat)
    (title content_html : String) : Except String Bool :=
  match post title content_html with
  | .error e => .error e
  | .ok status => if status = 201 then .ok true else .ok false

/-- The characters before the last dot of the list, when a dot occurs. -/
def beforeLastDot : List Char → Option (List Char)
  | [] => none
  | c :: cs =>
      match beforeLastDot cs with
      | some r => some (c :: r)
      | none => if c = '.' then some [] else none

/-- Models `os.path.splitext(name)[0]` (Python stdlib, external, line 128):
drop the last dot-delimited extension, keep the name unchanged when it has
no dot.  Python's special case for a basename consisting only of leading
dots is not modelled; no claim involves such a name. -/
def splitextRoot (name : String) : String :=
  match beforeLastDot name.toList with
  | some r => String.mk r
  | none => name

/-- Instrumented state of the `for file in files:` loop of `main`. -/
structure LoopState where
  /-- the dict bound to `published_data` -/
  data : PyDict
  /-- the value bound to `published_ids` -/
  ids : Json
  /-- ids for which `publish_to_wp` was invoked, in order -/
  attempts : List String
  /-- ids whose publish returned `True` (appended to the ledger) -/
  published : List String
  /-- payloads passed to `save_published`, in order -/
  saves : List PyDict

/-- The `for file in files:` loop of `main` (src/main.py lines 121-135).
Ids already in `published_ids` are skipped; otherwise the file is
downloaded, converted and posted; on status 201 the ledger is mutated,
saved, and the loop breaks; on any other status the loop continues with the
next file.  Exceptions of `download_file`, `docx_to_html` and
`requests.post` propagate (no try/except in `main`). -/
def mainLoop (env : Env) : List DriveFile → LoopState → Except String LoopState
  | [], st => .ok st
  | file :: rest, st =>
      match pyIn file.id st.ids with
      | .error e => .error e
      | .ok true => mainLoop env rest st
      | .ok false =>
          match env.download file.id with
          | .error e => .error e
          | .ok content_bytes =>
              match docx_to_html env.parseDocx content_bytes with
              | .error e => .error e
              | .ok html_content =>
                  match publish_to_wp env.post (splitextRoot file.name) html_content with
                  | .error e => .error e
                  | .ok success =>
                      if success then
                        match pyAppend st.ids (Json.str file.id) with
                        | .error e => .error e
                        | .ok newIds =>
                            let data1 := dictSet st.data "published_ids" newIds
                            let data2 := dictSet data1 "last_published_date" (Json.str env.today)
                            let _ := save_published env.save data2
                            .ok { data := data2, ids := newIds,
                                  attempts := st.attempts ++ [file.id],
                                  published := st.published ++ [file.id],
                                  saves := st.saves ++ [data2] }
                      else
                        mainLoop env rest { st with attempts := st.attempts ++ [file.id] }

/-- Observable outcome of one run of `main` that ended without an escaped
exception. -/
structure RunResult where
  /-- whether `list_docx_files` was called during the run -/
  listed : Bool
  /-- ids for which `publish_to_wp` was invoked, in order -/
  attempts : List String
  /-- ids whose publish returned `True` -/
  published : List String
  /-- payloads passed to `save_published` -/
  saves : List PyDict
  /-- final value of `published_data` -/
  finalData : PyDict
  /-- final value of `published_ids` -/
  finalIds : Json

/-- `main` (src/main.py lines 108-135): load the ledger, apply the daily
gate (string comparison of `today` with `last_published_date`), list the
candidates and run the loop.  `Except.error e` means the exception `e`
escaped `main`. -/
def main (env : Env) : Except String RunResult :=
  let published_data := load_published env.loadRaw
  let published_ids := dictGet published_data "published_ids" (Json.arr [])
  let last_date := dictGet published_data "last_published_date" (Json.str "")
  if strEqJson env.today last_date then
    .ok { listed := false, attempts := [], published := [], saves := [],
          finalData := published_data, finalIds := published_ids }
  else
    match env.listFiles with
    | .error e => .error e
    | .ok files =>
        match mainLoop env files
            { data := published_data, ids := published_ids,
              attempts := [], published := [], saves := [] } with
        | .error e => .error e
        | .ok st =>
            .ok { listed := true, attempts := st.attempts,
                  published := st.published, saves := st.saves,
                  finalData := st.data, finalIds := st.ids }

/-! ## Concrete environments and run outcomes used by witnesses -/

/-- The default ledger dict produced by `load_published` on any failure. -/
def defaultLedger : PyDict :=
  [("published_ids", Json.arr []), ("last_published_date", Json.str "")]

/-- Ledger dict after publishing id `a` on 2026-10-12 starting from empty. -/
def dW : PyDict :=
  [("published_ids", Json.arr [Json.str "a"]), ("last_published_date", Json.str "2026-10-12")]

/-- First run for the idempotency scenario: empty ledger, one candidate `a`,
publish succeeds, save succeeds. -/
def envIdem1 : Env :=
  { loadRaw := .error "HttpError 404",
    save := fun _ => .ok (),
    listFiles := .ok [{ id := "a", name := "a.docx" }],
    download := fun _ => .ok [],
    parseDocx := fun _ => .ok ["Hello"],
    post := fun _ _ => .ok 201,
    today := "2026-10-12" }

/-- Outcome of the first idempotency run. -/
def rIdem1 : RunResult :=
  { listed := true, attempts := ["a"], published := ["a"], saves := [dW],
    finalData := dW, finalIds := Json.arr [Json.str "a"] }

/-- Second run, the next day, loading the ledger saved by the first run. -/
def envIdem2 : Env :=
  { loadRaw := .ok (Json.obj dW),
    save := fun _ => .ok (),
    listFiles := .ok [{ id := "a", name := "a.docx" }],
    download := fun _ => .ok [],
    parseDocx := fun _ => .ok ["Hello"],
    post := fun _ _ => .ok 201,
    today := "2026-10-13" }

/-- Outcome of the second idempotency run: `a` is skipped, nothing happens. -/
def rIdem2 : RunResult :=
  { listed := true, attempts := [], published := [], saves := [],
    finalData := dW, finalIds := Json.arr [Json.str "a"] }

/-- Ledger dict after publishing id `b` on 2026-10-12 starting from empty. -/
def dTwo : PyDict :=
  [("published_ids", Json.arr [Json.str "b"]), ("last_published_date", Json.str "2026-10-12")]

/-- Two unpublished candidates; the POST for title `a` returns 500 and the
POST for title `b` returns 201. -/
def envTwoAttempts : Env :=
  { loadRaw := .error "absent",
    save := fun _ => .ok (),
    listFiles := .ok [{ id := "a", name := "a.docx" }, { id := "b", name := "b.docx" }],
    download := fun _ => .ok [],
    parseDocx := fun _ => .ok ["Hello"],
    post := fun title _ => if title = "a" then .ok 500 else .ok 201,
    today := "2026-10-12" }

/-- Outcome of `envTwoAttempts`: two publish attempts in one run. -/
def rTwoAttempts : RunResult :=
  { listed := true, attempts := ["a", "b"], published := ["b"], saves := [dTwo],
    finalData := dTwo, finalIds := Json.arr [Json.str "b"] }

/-- One unpublished candidate whose content download raises. -/
def envDownloadRaises : Env :=
  { loadRaw := .error "absent",
    save := fun _ => .ok (),
    listFiles := .ok [{ id := "a", name := "a.docx" }],
    download := fun _ => .error "HttpError 500",
    parseDocx := fun _ => .ok [],
    post := fun _ _ => .ok 201,
    today := "2026-10-12" }

/-- Both the ledger read and the ledger write raise; everything else is
healthy. -/
def envLedgerFailures : Env :=
  { loadRaw := .error "read failed",
    save := fun _ => .error "write failed",
    listFiles := .ok [{ id := "a", name := "a.docx" }],
    download := fun _ => .ok [],
    parseDocx := fun _ => .ok ["Hi"],
    post := fun _ _ => .ok 201,
    today := "2026-10-12" }

/-- The legacy plain-list ledger containing `a`, upgraded in memory. -/
def dLegacy : PyDict :=
  [("published_ids", Json.arr [Json.str "a"]), ("last_published_date", Json.str "")]

/-- Every listed file is already published (ledger in the legacy list form). -/
def envAllPublished : Env :=
  { loadRaw := .ok (Json.arr [Json.str "a"]),
    save := fun _ => .ok (),
    listFiles := .ok [{ id := "a", name := "a.docx" }],
    download := fun _ => .ok [],
    parseDocx := fun _ => .ok ["Hello"],
    post := fun _ _ => .ok 201,
    today := "2026-10-12" }

/-- Outcome of `envAllPublished`: pure pass over the candidates. -/
def rAllPublished : RunResult :=
  { listed := true, attempts := [], published := [], saves := [],
    finalData := dLegacy, finalIds := Json.arr [Json.str "a"] }

/-- Ledger dict after publishing id `y` on 2026-11-01 starting from empty. -/
def dFts : PyDict :=
  [("published_ids", Json.arr [Json.str "y"]), ("last_published_date", Json.str "2026-11-01")]

/-- The POST for candidate `x` fails with 500, the one for `y` succeeds. -/
def envFailThenSucceed : Env :=
  { loadRaw := .error "absent",
    save := fun _ => .ok (),
    listFiles := .ok [{ id := "x", name := "x.docx" }, { id := "y", name := "y.docx" }],
    download := fun _ => .ok [],
    parseDocx := fun _ => .ok ["Text"],
    post := fun title _ => if title = "x" then .ok 500 else .ok 201,
    today := "2026-11-01" }

/-- Outcome of `envFailThenSucceed`: the sink reported a failure for `x`,
yet the ledger left the run mutated (it gained `y`). -/
def rFailThenSucceed : RunResult :=
  { listed := true, attempts := ["x", "y"], published := ["y"], saves := [dFts],
    finalData := dFts, finalIds := Json.arr [Json.str "y"] }

/-- A single candidate whose publish fails with 403. -/
def envAllFail : Env :=
  { loadRaw := .error "absent",
    save := fun _ => .ok (),
    listFiles := .ok [{ id := "x", name := "x.docx" }],
    download := fun _ => .ok [],
    parseDocx := fun _ => .ok ["Text"],
    post := fun _ _ => .ok 403,
    today := "2026-11-01" }

/-- Outcome of `envAllFail`: one failed attempt, ledger untouched. -/
def rAllFail : RunResult :=
  { listed := true, attempts := ["x"], published := [], saves := [],
    finalData := defaultLedger, finalIds := Json.arr [] }

/-- A structured ledger recording id `a` published on 2026-10-12. -/
def dGate : PyDict :=
  [("published_ids", Json.arr [Json.str "a"]), ("last_published_date", Json.str "2026-10-12")]

/-- The last published date equals today: the gate must deny. -/
def envGateToday : Env :=
  { loadRaw := .ok (Json.obj dGate),
    save := fun _ => .ok (),
    listFiles := .ok [{ id := "b", name := "b.docx" }],
    download := fun _ => .ok [],
    parseDocx := fun _ => .ok ["Hi"],
    post := fun _ _ => .ok 201,
    today := "2026-10-12" }

/-- The gate allows (yesterday's date) but the listing itself raises. -/
def envGateListErr : Env :=
  { loadRaw := .ok (Json.obj dGate),
    save := fun _ => .ok (),
    listFiles := .error "ListingError",
    download := fun _ => .ok [],
    parseDocx := fun _ => .ok ["Hi"],
    post := fun _ _ => .ok 201,
    today := "2026-10-13" }

/-- The gate allows (yesterday's date) and a fresh candidate is published. -/
def envGateYesterday : Env :=
  { loadRaw := .ok (Json.obj dGate),
    save := fun _ => .ok (),
    listFiles := .ok [{ id := "b", name := "b.docx" }],
    download := fun _ => .ok [],
    parseDocx := fun _ => .ok ["Hi"],
    post := fun _ _ => .ok 201,
    today := "2026-10-13" }

/-- Ledger dict of `envGateYesterday` after its run. -/
def dGateAfter : PyDict :=
  [("published_ids", Json.arr [Json.str "a", Json.str "b"]),
   ("last_published_date", Json.str "2026-10-13")]

/-- Outcome of `envGateYesterday`. -/
def rGateYesterday : RunResult :=
  { listed := true, attempts := ["b"], published := ["b"], saves := [dGateAfter],
    finalData := dGateAfter, finalIds := Json.arr [Json.str "a", Json.str "b"] }

/-- Ledger dict after publishing id `p` on 2026-12-01 starting from empty. -/
def dOne : PyDict :=
  [("published_ids", Json.arr [Json.str "p"]), ("last_published_date", Json.str "2026-12-01")]

/-- Two unpublished candidates, every POST succeeds: the run must stop after
the first one. -/
def envOnePublish : Env :=
  { loadRaw := .error "absent",
    save := fun _ => .ok (),
    listFiles := .ok [{ id := "p", name := "p.docx" }, { id := "q", name := "q.docx" }],
    download := fun _ => .ok [],
    parseDocx := fun _ => .ok ["Body"],
    post := fun _ _ => .ok 201,
    today := "2026-12-01" }

/-- Outcome of `envOnePublish`: only `p` is attempted and published. -/
def rOnePublish : RunResult :=
  { listed := true, attempts := ["p"], published := ["p"], saves := [dOne],
    finalData := dOne, finalIds := Json.arr [Json.str "p"] }

/-! ## Basic lemmas about the Python-primitive models -/

lemma strEqJson_iff (t : String) (j : Json) : strEqJson t j = true ↔ j = Json.str t := by
  cases j <;> simp [strEqJson]
  exact eq_comm

lemma any_strEqJson_iff (t : String) (elems : List Json) :
    elems.any (strEqJson t) = true ↔ Json.str t ∈ elems := by
  simp [List.any_eq_true, strEqJson_iff]

lemma pyIn_arr (x : String) (elems : List Json) :
    pyIn x (Json.arr elems) = .ok (elems.any (strEqJson x)) := rfl

lemma pyAppend_ok (container x j : Json) (h : pyAppend container x = .ok j) :
    ∃ elems, container = Json.arr elems ∧ j = Json.arr (elems ++ [x]) := by
  cases container <;> simp [pyAppend] at h
  exact ⟨_, rfl, h.symm⟩

lemma dictLookup_set_self (d : PyDict) (key : String) (v : Json) :
    dictLookup (dictSet d key v) key = some v := by
  induction d with
  | nil => simp [dictSet, dictLookup]
  | cons kv rest ih =>
      obtain ⟨k, w⟩ := kv
      by_cases hk : k = key
      · simp [dictSet, hk, dictLookup]
      · simp [dictSet, hk, dictLookup, ih]

lemma dictLookup_set_other (d : PyDict) (key key' : String) (v : Json)
    (h : key' ≠ key) : dictLookup (dictSet d key v) key' = dictLookup d key' := by
  induction d with
  | nil => simp [dictSet, dictLookup, Ne.symm h]
  | cons kv rest ih =>
      obtain ⟨k, w⟩ := kv
      by_cases hk : k = key
      · subst hk
        simp [dictSet, dictLookup, h, Ne.symm h]
      · simp [dictSet, hk, dictLookup, ih]

lemma dictGet_set_self (d : PyDict) (key : String) (v dfl : Json) :
    dictGet (dictSet d key v) key dfl = v := by
  simp [dictGet, dictLookup_set_self]

lemma dictGet_set_other (d : PyDict) (key key' : String) (v dfl : Json)
    (h : key' ≠ key) : dictGet (dictSet d key v) key' dfl = dictGet d key' dfl := by
  simp [dictGet, dictLookup_set_other _ _ _ _ h]

lemma strJoin_cons (s : String) (l : List String) :
    String.join (s :: l) = s ++ String.join l := by
  cases s
  simp [String.join_eq]
  rfl

lemma htmlStep_pos (html t : String) (hst : stripNonempty t = true) :
    htmlStep html t = html ++ ("<p>" ++ t ++ "</p>\n") := by
  simp [htmlStep, hst]

lemma htmlStep_neg (html t : String) (hst : ¬ stripNonempty t = true) :
    htmlStep html t = html := by
  simp [htmlStep, hst]

lemma htmlOfParagraphs_foldl (paras : List String) (acc : String) :
    paras.foldl htmlStep acc =
      acc ++ String.join ((paras.filter stripNonempty).map (fun t => "<p>" ++ t ++ "</p>\n")) := by
  induction paras generalizing acc with
  | nil => simp [String.join]
  | cons t rest ih =>
      by_cases hst : stripNonempty t = true
      · rw [List.foldl_cons, htmlStep_pos acc t hst, ih, List.filter_cons, if_pos hst,
          List.map_cons, strJoin_cons, String.append_assoc]
      · rw [List.foldl_cons, htmlStep_neg acc t hst, ih, List.filter_cons, if_neg hst]

lemma htmlOfParagraphs_eq_join (paras : List String) :
    htmlOfParagraphs paras =
      String.join ((paras.filter stripNonempty).map (fun t => "<p>" ++ t ++ "</p>\n")) := by
  have h := htmlOfParagraphs_foldl paras ""
  simpa [htmlOfParagraphs] using h

/-! ## Lemmas about the scheduler loop -/

/-- Either no publish succeeded and `data`, `ids`, `published` and `saves`
are untouched, or exactly one id was published: it was appended to the id
list, both ledger fields were updated, exactly that payload was saved, and
it was the final publish attempt of the run. -/
lemma mainLoop_cases (env : Env) (files : List DriveFile) (st st' : LoopState)
    (h : mainLoop env files st = .ok st') :
    (st'.published = st.published ∧ st'.ids = st.ids ∧ st'.data = st.data ∧
      st'.saves = st.saves)
    ∨ (∃ pid elems,
        st'.published = st.published ++ [pid] ∧
        st.ids = Json.arr elems ∧
        st'.ids = Json.arr (elems ++ [Json.str pid]) ∧
        st'.data = dictSet (dictSet st.data "published_ids" (Json.arr (elems ++ [Json.str pid])))
            "last_published_date" (Json.str env.today) ∧
        st'.saves = st.saves ++ [st'.data] ∧
        st'.attempts.getLast? = some pid) := by
  induction files generalizing st with
  | nil =>
      simp only [mainLoop] at h
      cases h
      exact Or.inl ⟨rfl, rfl, rfl, rfl⟩
  | cons file rest ih =>
      rw [mainLoop] at h
      cases hmem : pyIn file.id st.ids with
      | error e => simp only [hmem] at h; exact Except.noConfusion h
      | ok b =>
          simp only [hmem] at h
          cases b with
          | true => exact ih st h
          | false =>
              simp only at h
              cases hdl : env.download file.id with
              | error e => simp only [hdl] at h; exact Except.noConfusion h
              | ok content_bytes =>
                  simp only [hdl] at h
                  cases hcv : docx_to_html env.parseDocx content_bytes with
                  | error e => simp only [hcv] at h; exact Except.noConfusion h
                  | ok html_content =>
                      simp only [hcv] at h
                      cases hpw : publish_to_wp env.post (splitextRoot file.name) html_content with
                      | error e => simp only [hpw] at h; exact Except.noConfusion h
                      | ok success =>
                          simp only [hpw] at h
                          cases success with
                          | false =>
                              simp only [Bool.false_eq_true, if_false] at h
                              have h2 := ih { st with attempts := st.attempts ++ [file.id] } h
                              simpa using h2
                          | true =>
                              simp only [if_true] at h
                              cases happ : pyAppend st.ids (Json.str file.id) with
                              | error e => simp only [happ] at h; exact Except.noConfusion h
                              | ok newIds =>
                                  simp only [happ] at h
                                  obtain ⟨elems, hc, hn⟩ := pyAppend_ok _ _ _ happ
                                  cases h
                                  subst hn
                                  exact Or.inr ⟨file.id, elems, rfl, hc, rfl, rfl, rfl,
                                    List.getLast?_concat _⟩

/-- An id whose string is already a member of the id list is never attempted
and never published by the loop, and the id list keeps containing it. -/
lemma mainLoop_skip (env : Env) (files : List DriveFile) (st st' : LoopState)
    (x : String) (elems : List Json)
    (hids : st.ids = Json.arr elems) (hmemx : Json.str x ∈ elems)
    (h : mainLoop env files st = .ok st') :
    (x ∈ st'.attempts → x ∈ st.attempts) ∧ (x ∈ st'.published → x ∈ st.published) := by
  induction files generalizing st elems with
  | nil =>
      simp only [mainLoop] at h
      cases h
      exact ⟨id, id⟩
  | cons file rest ih =>
      rw [mainLoop] at h
      cases hmem : pyIn file.id st.ids with
      | error e => simp only [hmem] at h; exact Except.noConfusion h
      | ok b =>
          simp only [hmem] at h
          cases b with
          | true => exact ih st elems hids hmemx h
          | false =>
              have hne : file.id ≠ x := by
                intro hEq
                subst hEq
                rw [hids, pyIn_arr] at hmem
                injection hmem with h'
                rw [(any_strEqJson_iff file.id elems).mpr hmemx] at h'
                exact Bool.noConfusion h'
              cases hdl : env.download file.id with
              | error e => simp only [hdl] at h; exact Except.noConfusion h
              | ok content_bytes =>
                  simp only [hdl] at h
                  cases hcv : docx_to_html env.parseDocx content_bytes with
                  | error e => simp only [hcv] at h; exact Except.noConfusion h
                  | ok html_content =>
                      simp only [hcv] at h
                      cases hpw : publish_to_wp env.post (splitextRoot file.name) html_content with
                      | error e => simp only [hpw] at h; exact Except.noConfusion h
                      | ok success =>
                          simp only [hpw] at h
                          cases success with
                          | false =>
                              simp only [Bool.false_eq_true, if_false] at h
                              have h2 := ih { st with attempts := st.attempts ++ [file.id] }
                                elems hids hmemx h
                              refine ⟨fun hx => ?_, h2.2⟩
                              have := h2.1 hx
                              simp only [List.mem_append, List.mem_singleton] at this
                              rcases this with hx' | hx'
                              · exact hx'
                              · exact absurd hx'.symm hne
                          | true =>
                              simp only [if_true] at h
                              cases happ : pyAppend st.ids (Json.str file.id) with
                              | error e => simp only [happ] at h; exact Except.noConfusion h
                              | ok newIds =>
                                  simp only [happ] at h
                                  cases h
                                  constructor
                                  · intro hx
                                    simp only [List.mem_append, List.mem_singleton] at hx
                                    rcases hx with hx' | hx'
                                    · exact hx'
                                    · exact absurd hx'.symm hne
                                  · intro hx
                                    simp only [List.mem_append, List.mem_singleton] at hx
                                    rcases hx with hx' | hx'
                                    · exact hx'
                                    · exact absurd hx'.symm hne

/-- When every listed file's id is already in the id list, the loop is pure
iteration: it returns its input state unchanged (zero attempts, zero saves). -/
lemma mainLoop_all_member (env : Env) (files : List DriveFile) (st : LoopState)
    (elems : List Json) (hids : st.ids = Json.arr elems)
    (hall : ∀ f ∈ files, Json.str f.id ∈ elems) :
    mainLoop env files st = .ok st := by
  induction files with
  | nil => rfl
  | cons file rest ih =>
      rw [mainLoop]
      have hm : pyIn file.id st.ids = .ok true := by
        rw [hids, pyIn_arr]
        exact congrArg Except.ok ((any_strEqJson_iff _ _).mpr (hall file (by simp)))
      simp only [hm]
      exact ih (fun f hf => hall f (List.mem_cons_of_mem _ hf))

/-- When the id list is a JSON list and neither download, parsing nor the
POST raises, the loop terminates without an escaped exception (the ledger
save oracle is unconstrained: its failures are caught). -/
lemma mainLoop_benign (env : Env) (files : List DriveFile) (st : LoopState)
    (elems : List Json) (hids : st.ids = Json.arr elems)
    (hdl : ∀ i, ∃ b, env.download i = .ok b)
    (hparse : ∀ b, ∃ ps, env.parseDocx b = .ok ps)
    (hpost : ∀ t c, ∃ s, env.post t c = .ok s) :
    ∃ st', mainLoop env files st = .ok st' := by
  induction files generalizing st elems with
  | nil => exact ⟨st, rfl⟩
  | cons file rest ih =>
      rw [mainLoop]
      cases hm : pyIn file.id st.ids with
      | error e =>
          rw [hids, pyIn_arr] at hm
          exact Except.noConfusion hm
      | ok b =>
          simp only [hm]
          cases b with
          | true => exact ih st elems hids
          | false =>
              obtain ⟨content_bytes, hb⟩ := hdl file.id
              simp only [hb]
              obtain ⟨paras, hp⟩ := hparse content_bytes
              have hcv : docx_to_html env.parseDocx content_bytes =
                  .ok (htmlOfParagraphs paras) := by
                rw [docx_to_html, hp]
              simp only [hcv]
              obtain ⟨status, hs⟩ := hpost (splitextRoot file.name) (htmlOfParagraphs paras)
              by_cases h201 : status = 201
              · have hpw : publish_to_wp env.post (splitextRoot file.name)
                    (htmlOfParagraphs paras) = .ok true := by
                  simp [publish_to_wp, hs, h201]
                simp only [hpw, if_true]
                have happ : pyAppend st.ids (Json.str file.id) =
                    .ok (Json.arr (elems ++ [Json.str file.id])) := by
                  rw [hids]; rfl
                simp only [happ]
                exact ⟨_, rfl⟩
              · have hpw : publish_to_wp env.post (splitextRoot file.name)
                    (htmlOfParagraphs paras) = .ok false := by
                  simp [publish_to_wp, hs, h201]
                simp only [hpw, Bool.false_eq_true, if_false]
                exact ih { st with attempts := st.attempts ++ [file.id] } elems hids

/-! ## Unfolding lemmas for `main` -/

/-- The dict `published_data` right after loading. -/
def initData (env : Env) : PyDict := load_published env.loadRaw

/-- The value bound to `published_ids` at the start of the run. -/
def initIds (env : Env) : Json := dictGet (initData env) "published_ids" (Json.arr [])

/-- The value bound to `last_date` at the start of the run. -/
def initLast (env : Env) : Json :=
  dictGet (initData env) "last_published_date" (Json.str "")

/-- The loop state at entry of the `for` loop. -/
def initState (env : Env) : LoopState :=
  { data := initData env, ids := initIds env, attempts := [], published := [], saves := [] }

/-- The run outcome when the daily gate denies. -/
def gateResult (env : Env) : RunResult :=
  { listed := false, attempts := [], published := [], saves := [],
    finalData := initData env, finalIds := initIds env }

/-- The run outcome assembled from a completed loop state. -/
def runResultOf (st : LoopState) : RunResult :=
  { listed := true, attempts := st.attempts, published := st.published,
    saves := st.saves, finalData := st.data, finalIds := st.ids }

lemma main_gate_denied (env : Env)
    (hg : strEqJson env.today (initLast env) = true) :
    main env = .ok (gateResult env) := by
  have hg' : strEqJson env.today
      (dictGet (load_published env.loadRaw) "last_published_date" (Json.str "")) = true := hg
  simp only [main, hg', if_true]
  rfl

lemma main_gate_allowed (env : Env)
    (hg : strEqJson env.today (initLast env) = false) :
    main env =
      match env.listFiles with
      | .error e => .error e
      | .ok files =>
          match mainLoop env files (initState env) with
          | .error e => .error e
          | .ok st => .ok (runResultOf st) := by
  have hg' : strEqJson env.today
      (dictGet (load_published env.loadRaw) "last_published_date" (Json.str "")) = false := hg
  simp only [main, hg', Bool.false_eq_true, if_false]
  rfl

lemma main_gate_allowed_err (env : Env) (e : String)
    (hg : strEqJson env.today (initLast env) = false)
    (hl : env.listFiles = .error e) :
    main env = .error e := by
  rw [main_gate_allowed env hg, hl]

lemma main_ok_cases (env : Env) (r : RunResult) (h : main env = .ok r) :
    (strEqJson env.today (initLast env) = true ∧ r = gateResult env)
    ∨ (strEqJson env.today (initLast env) = false ∧
        ∃ files st, env.listFiles = .ok files ∧
          mainLoop env files (initState env) = .ok st ∧ r = runResultOf st) := by
  cases hg : strEqJson env.today (initLast env) with
  | true =>
      rw [main_gate_denied env hg] at h
      injection h with h'
      exact Or.inl ⟨rfl, h'.symm⟩
  | false =>
      rw [main_gate_allowed env hg] at h
      split at h
      next e hl => exact Except.noConfusion h
      next files hl =>
        split at h
        next e hml => exact Except.noConfusion h
        next st hml =>
          injection h with h'
          exact Or.inr ⟨rfl, files, st, hl, hml, h'.symm⟩


/-! ## The claims -/

/-- C7: loading the ledger fails soft — a read/parse exception, or a JSON
value that is neither a list nor an object, yields the default empty ledger
(empty id list, absent timestamp, encoded as the empty string) without
propagating the error — and a legacy plain JSON list upgrades in memory to
the structured dict with those elements as `published_ids` and an absent
`last_published_date`. -/
theorem c7_load_fails_soft_and_upgrades :
    (∀ e, load_published (.error e) = defaultLedger) ∧
    load_published (.ok Json.null) = defaultLedger ∧
    (∀ b, load_published (.ok (Json.bool b)) = defaultLedger) ∧
    (∀ n, load_published (.ok (Json.num n)) = defaultLedger) ∧
    (∀ s, load_published (.ok (Json.str s)) = defaultLedger) ∧
    (∀ elems, load_published (.ok (Json.arr elems)) =
      [("published_ids", Json.arr elems), ("last_published_date", Json.str "")]) :=
  ⟨fun _ => rfl, rfl, fun _ => rfl, fun _ => rfl, fun _ => rfl, fun _ => rfl⟩

/-- C9: the converter emits one HTML paragraph element per paragraph whose
text is not empty or whitespace-only, in document order; in particular the
document with paragraphs Hello, empty, blanks, World converts to exactly
two paragraph elements separated by newlines. -/
theorem c9_conversion_determinism :
    (∀ paras : List String,
      htmlOfParagraphs paras =
        String.join ((paras.filter stripNonempty).map (fun t => "<p>" ++ t ++ "</p>\n"))) ∧
    htmlOfParagraphs ["Hello", "", "  ", "World"] = "<p>Hello</p>\n<p>World</p>\n" :=
  ⟨htmlOfParagraphs_eq_join, rfl⟩

/-- C10 (implicit): the converter interpolates each retained paragraph's
text verbatim — no HTML escaping and no trimming — so the output is the
concatenation of the wrapped texts over exactly those paragraphs containing
a non-whitespace character; in particular angle brackets, ampersands and
surrounding spaces survive untouched. -/
theorem c10_verbatim_interpolation :
    (∀ paras : List String,
      htmlOfParagraphs paras =
        String.join ((paras.filter (fun t => t.toList.any (fun c => !c.isWhitespace))).map
          (fun t => "<p>" ++ t ++ "</p>\n"))) ∧
    htmlOfParagraphs ["a<b&c", " x "] = "<p>a<b&c</p>\n<p> x </p>\n" := by
  constructor
  · intro paras
    have h := htmlOfParagraphs_eq_join paras
    simpa [stripNonempty] using h
  · rfl

/-- C4 fails as stated: an exception of `download_file` (here an HTTP error
while downloading the selected candidate's content) is not caught anywhere
and propagates out of `main`. -/
theorem c4_counterexample : main envDownloadRaises = .error "HttpError 500" := rfl

/-- C4 amended: only ledger read/parse errors and ledger write errors are
caught (`load_published` and `save_published`); when the listing, every
download, every parse and every POST return normally — with no assumption
at all on the ledger read or the ledger write — no exception escapes
`main`.  Failures of catalog listing, content download, conversion or the
POST transport do propagate, as the counterexample shows. -/
theorem c4_amended_only_ledger_errors_caught (env : Env) (files : List DriveFile)
    (elems : List Json)
    (hl : env.listFiles = .ok files)
    (hids : initIds env = Json.arr elems)
    (hdl : ∀ i, ∃ b, env.download i = .ok b)
    (hparse : ∀ b, ∃ ps, env.parseDocx b = .ok ps)
    (hpost : ∀ t c, ∃ s, env.post t c = .ok s) :
    ∃ r, main env = .ok r := by
  cases hg : strEqJson env.today (initLast env) with
  | true => exact ⟨gateResult env, main_gate_denied env hg⟩
  | false =>
      obtain ⟨st, hst⟩ := mainLoop_benign env files (initState env) elems hids hdl hparse hpost
      refine ⟨runResultOf st, ?_⟩
      rw [main_gate_allowed env hg]
      simp only [hl, hst]

/-- Witness for the amended C4: both the ledger read and the ledger write
raise, everything else is healthy, and the run still completes normally. -/
theorem c4_amended_witness :
    envLedgerFailures.listFiles = .ok [{ id := "a", name := "a.docx" }] ∧
      initIds envLedgerFailures = Json.arr [] ∧
      (∃ r, main envLedgerFailures = .ok r) :=
  ⟨rfl, rfl,
    c4_amended_only_ledger_errors_caught envLedgerFailures
      [{ id := "a", name := "a.docx" }] [] rfl rfl
      (fun _ => ⟨[], rfl⟩) (fun _ => ⟨["Hi"], rfl⟩) (fun _ _ => ⟨201, rfl⟩)⟩

/-- C2 fails as stated: with two unpublished candidates where the first
POST returns 500 and the second 201, a single run fetches, converts and
submits BOTH candidates — after the failed first attempt the loop advances
to the next candidate instead of ending the run. -/
theorem c2_counterexample :
    main envTwoAttempts = .ok rTwoAttempts ∧ rTwoAttempts.attempts = ["a", "b"] ∧
      ¬ rTwoAttempts.attempts.length ≤ 1 :=
  ⟨rfl, rfl, by decide⟩

/-- C2 amended: at most one candidate is SUCCESSFULLY published per run,
and after the first successful publish the run never advances to another
candidate (the successful id is the last publish attempt of the run);
after a FAILED attempt, however, the run does advance to the next
candidate. -/
theorem c2_amended_stop_after_success (env : Env) (r : RunResult)
    (h : main env = .ok r) :
    r.published.length ≤ 1 ∧ ∀ p, r.published = [p] → r.attempts.getLast? = some p := by
  rcases main_ok_cases env r h with ⟨_, rfl⟩ | ⟨_, files, st, _, hml, rfl⟩
  · refine ⟨by simp [gateResult], fun p hp => ?_⟩
    simp [gateResult] at hp
  · rcases mainLoop_cases env files (initState env) st hml with
      ⟨hp, _, _, _⟩ | ⟨pid, elems, hp, _, _, _, _, hlast⟩
    · refine ⟨?_, fun p hpp => ?_⟩
      · simp [runResultOf, hp, initState]
      · rw [show (runResultOf st).published = st.published from rfl, hp] at hpp
        simp [initState] at hpp
    · refine ⟨?_, fun p hpp => ?_⟩
      · simp [runResultOf, hp, initState]
      · rw [show (runResultOf st).published = st.published from rfl, hp] at hpp
        simp only [initState, List.nil_append] at hpp
        injection hpp with hpid _
        subst hpid
        exact hlast

/-- Witness for the amended C2, at the same two-candidate environment as
the counterexample: one success, and it is the last attempt. -/
theorem c2_amended_witness :
    main envTwoAttempts = .ok rTwoAttempts ∧
      (rTwoAttempts.published.length ≤ 1 ∧
        ∀ p, rTwoAttempts.published = [p] → rTwoAttempts.attempts.getLast? = some p) :=
  ⟨rfl, c2_amended_stop_after_success envTwoAttempts rTwoAttempts rfl⟩

/-- C3: a single run publishes at most one previously-unpublished file, and
immediately after the first successful publish and its ledger commit the
run terminates: the successful id is the final publish attempt, and the
number of ledger writes equals the number of successful publishes. -/
theorem c3_at_most_one_publish_per_run (env : Env) (r : RunResult)
    (h : main env = .ok r) :
    r.published.length ≤ 1 ∧ r.saves.length = r.published.length ∧
      ∀ p, r.published = [p] → r.attempts ≠ [] ∧ r.attempts.getLast? = some p := by
  rcases main_ok_cases env r h with ⟨_, rfl⟩ | ⟨_, files, st, _, hml, rfl⟩
  · refine ⟨by simp [gateResult], by simp [gateResult], fun p hp => ?_⟩
    simp [gateResult] at hp
  · rcases mainLoop_cases env files (initState env) st hml with
      ⟨hp, _, _, hs⟩ | ⟨pid, elems, hp, _, _, _, hs, hlast⟩
    · refine ⟨?_, ?_, fun p hpp => ?_⟩
      · simp [runResultOf, hp, initState]
      · simp [runResultOf, hp, hs, initState]
      · rw [show (runResultOf st).published = st.published from rfl, hp] at hpp
        simp [initState] at hpp
    · refine ⟨?_, ?_, fun p hpp => ?_⟩
      · simp [runResultOf, hp, initState]
      · simp [runResultOf, hp, hs, initState]
      · rw [show (runResultOf st).published = st.published from rfl, hp] at hpp
        simp only [initState, List.nil_append] at hpp
        injection hpp with hpid _
        subst hpid
        refine ⟨fun hnil => ?_, hlast⟩
        rw [show (runResultOf st).attempts = st.attempts from rfl] at hnil
        rw [hnil] at hlast
        exact Option.noConfusion hlast

/-- Witness for C3: two fresh candidates, every POST succeeds, and the run
stops after publishing the first one. -/
theorem c3_witness :
    main envOnePublish = .ok rOnePublish ∧
      (rOnePublish.published.length ≤ 1 ∧
        rOnePublish.saves.length = rOnePublish.published.length ∧
        ∀ p, rOnePublish.published = [p] →
          rOnePublish.attempts ≠ [] ∧ rOnePublish.attempts.getLast? = some p) :=
  ⟨rfl, c3_at_most_one_publish_per_run envOnePublish rOnePublish rfl⟩

/-- C5: the ledger is written at most once per run and exactly as often as
a publish succeeded; with no successful publish the in-memory ledger is
untouched and nothing is saved; and when every listed file's id is already
in the loaded `published_ids` the run makes zero publish attempts and zero
ledger writes. -/
theorem c5_save_only_after_success (env : Env) (r : RunResult)
    (h : main env = .ok r) :
    r.saves.length = r.published.length ∧ r.published.length ≤ 1 ∧
      (r.published = [] →
        r.finalIds = initIds env ∧ r.finalData = initData env ∧ r.saves = []) ∧
      ((∃ files, env.listFiles = .ok files ∧ ∃ elems, initIds env = Json.arr elems ∧
          ∀ f ∈ files, Json.str f.id ∈ elems) →
        r.attempts = [] ∧ r.saves = []) := by
  rcases main_ok_cases env r h with ⟨_, rfl⟩ | ⟨_, files, st, hl, hml, rfl⟩
  · exact ⟨rfl, by simp [gateResult], fun _ => ⟨rfl, rfl, rfl⟩, fun _ => ⟨rfl, rfl⟩⟩
  · have hfourth : (∃ files', env.listFiles = .ok files' ∧
        ∃ elems, initIds env = Json.arr elems ∧ ∀ f ∈ files', Json.str f.id ∈ elems) →
        (runResultOf st).attempts = [] ∧ (runResultOf st).saves = [] := by
      rintro ⟨files', hl', elems, hie, hall⟩
      have hfe : files = files' := by
        have := hl.symm.trans hl'
        injection this
      subst hfe
      have hid : mainLoop env files (initState env) = .ok (initState env) :=
        mainLoop_all_member env files (initState env) elems hie hall
      have hst : st = initState env := by
        have := hml.symm.trans hid
        injection this
      subst hst
      exact ⟨rfl, rfl⟩
    rcases mainLoop_cases env files (initState env) st hml with
      ⟨hp, _, _, hs⟩ | ⟨pid, elems, hp, _, hi1, hd2, hs, _⟩
    · refine ⟨?_, ?_, fun _ => ?_, hfourth⟩
      · simp [runResultOf, hp, hs, initState]
      · simp [runResultOf, hp, initState]
      · rcases mainLoop_cases env files (initState env) st hml with
          ⟨_, hi, hd, hs'⟩ | ⟨pid, elems, hp', _, _, _, _, _⟩
        · exact ⟨hi, hd, hs'⟩
        · exact absurd (hp.symm.trans hp') (by simp [initState])
    · refine ⟨?_, ?_, fun hnone => ?_, hfourth⟩
      · simp [runResultOf, hp, hs, initState]
      · simp [runResultOf, hp, initState]
      · rw [show (runResultOf st).published = st.published from rfl, hp] at hnone
        simp [initState] at hnone

/-- Witness for C5: the single listed file is already recorded in a legacy
plain-list ledger; the run attempts nothing and saves nothing. -/
theorem c5_witness :
    main envAllPublished = .ok rAllPublished ∧
      (rAllPublished.saves.length = rAllPublished.published.length ∧
        rAllPublished.published.length ≤ 1 ∧
        (rAllPublished.published = [] →
          rAllPublished.finalIds = initIds envAllPublished ∧
          rAllPublished.finalData = initData envAllPublished ∧
          rAllPublished.saves = []) ∧
        ((∃ files, envAllPublished.listFiles = .ok files ∧
            ∃ elems, initIds envAllPublished = Json.arr elems ∧
            ∀ f ∈ files, Json.str f.id ∈ elems) →
          rAllPublished.attempts = [] ∧ rAllPublished.saves = [])) :=
  ⟨rfl, c5_save_only_after_success envAllPublished rAllPublished rfl⟩

/-- C6 fails as stated: in a run where the Publish Sink DID report a
failure (candidate `x` got a 500 and was attempted but not published), the
ledger is nonetheless mutated, because the loop advanced to candidate `y`
whose publish succeeded. -/
theorem c6_counterexample :
    main envFailThenSucceed = .ok rFailThenSucceed ∧
      "x" ∈ rFailThenSucceed.attempts ∧ "x" ∉ rFailThenSucceed.published ∧
      initIds envFailThenSucceed = Json.arr [] ∧
      rFailThenSucceed.finalIds ≠ Json.arr [] :=
  ⟨rfl, by decide, by decide, rfl, by simp [rFailThenSucceed]⟩

/-- C6 amended: in every run in which NO publish attempt succeeds (in
particular whenever the sink only ever reports failure), `published_ids`
after the run is exactly the list loaded at the start — no partial
mutation — and the whole `published_data` dict is unchanged. -/
theorem c6_failure_leaves_ledger_unchanged (env : Env) (r : RunResult)
    (h : main env = .ok r) (hnone : r.published = []) :
    r.finalIds = initIds env ∧ r.finalData = initData env := by
  rcases main_ok_cases env r h with ⟨_, rfl⟩ | ⟨_, files, st, _, hml, rfl⟩
  · exact ⟨rfl, rfl⟩
  · rcases mainLoop_cases env files (initState env) st hml with
      ⟨_, hi, hd, _⟩ | ⟨pid, elems, hp, _, _, _, _, _⟩
    · exact ⟨hi, hd⟩
    · rw [show (runResultOf st).published = st.published from rfl, hp] at hnone
      simp [initState] at hnone

/-- Witness for the amended C6: a single candidate whose POST fails with
403; the ledger after the run is the ledger before it. -/
theorem c6_amended_witness :
    main envAllFail = .ok rAllFail ∧ rAllFail.published = [] ∧
      (rAllFail.finalIds = initIds envAllFail ∧
        rAllFail.finalData = initData envAllFail) :=
  ⟨rfl, rfl, c6_failure_leaves_ledger_unchanged envAllFail rAllFail rfl rfl⟩

/-- C8: the daily gate compares the stored `last_published_date` string
with today's date string; on equality the run ends at once with no catalog
listing, no publish attempt and no save; on inequality (including the
absent date, encoded as the empty string) the run proceeds to list the
candidates — a listing exception propagates, and every normally completed
run did call the listing. -/
theorem c8_daily_gate (env : Env) :
    (initLast env = Json.str env.today → main env = .ok (gateResult env)) ∧
    (initLast env ≠ Json.str env.today →
      (∀ e, env.listFiles = .error e → main env = .error e) ∧
      (∀ r, main env = .ok r → r.listed = true)) := by
  constructor
  · intro hEq
    apply main_gate_denied
    rw [hEq]
    simp [strEqJson]
  · intro hNe
    have hg : strEqJson env.today (initLast env) = false := by
      cases hb : strEqJson env.today (initLast env)
      · rfl
      · exact absurd ((strEqJson_iff _ _).mp hb) hNe
    refine ⟨fun e hl => main_gate_allowed_err env e hg hl, fun r h => ?_⟩
    rcases main_ok_cases env r h with ⟨hg', _⟩ | ⟨_, files, st, _, _, rfl⟩
    · rw [hg] at hg'
      exact Bool.noConfusion hg'
    · rfl

/-- Witness for C8: the gate denies when the ledger date is today; with
yesterday's date the run propagates a listing error, and a completed run
did list; the full runs are evaluated concretely. -/
theorem c8_daily_gate_witness :
    (initLast envGateToday = Json.str envGateToday.today ∧
      main envGateToday = .ok (gateResult envGateToday)) ∧
    (initLast envGateListErr ≠ Json.str envGateListErr.today ∧
      envGateListErr.listFiles = .error "ListingError" ∧
      main envGateListErr = .error "ListingError") ∧
    (main envGateYesterday = .ok rGateYesterday ∧ rGateYesterday.listed = true) := by
  have hne : initLast envGateListErr ≠ Json.str envGateListErr.today := by
    intro hcon
    injection hcon with h'
    exact absurd h' (by decide)
  have hne2 : initLast envGateYesterday ≠ Json.str envGateYesterday.today := by
    intro hcon
    injection hcon with h'
    exact absurd h' (by decide)
  exact ⟨⟨rfl, (c8_daily_gate envGateToday).1 rfl⟩,
    ⟨hne, rfl, ((c8_daily_gate envGateListErr).2 hne).1 "ListingError" rfl⟩,
    ⟨rfl, ((c8_daily_gate envGateYesterday).2 hne2).2 rGateYesterday rfl⟩⟩

/-- C1: if a run publishes `pid` and the single ledger save of that run
succeeds, then a second run that loads the saved ledger (and whose cadence
gate allows it) never attempts and never publishes `pid` again — an id
present in the loaded `published_ids` list is always skipped by candidate
selection. -/
theorem c1_idempotent_rerun (env1 env2 : Env) (r1 r2 : RunResult)
    (pid : String) (d : PyDict)
    (h1 : main env1 = .ok r1)
    (hpub : pid ∈ r1.published)
    (hsaves : r1.saves = [d])
    (hsaveOk : env1.save (Json.obj d) = .ok ())
    (hload : env2.loadRaw = .ok (Json.obj d))
    (hgate : initLast env2 ≠ Json.str env2.today)
    (h2 : main env2 = .ok r2) :
    pid ∉ r2.attempts ∧ pid ∉ r2.published := by
  rcases main_ok_cases env1 r1 h1 with ⟨_, rfl⟩ | ⟨_, files1, st1, hl1, hml1, rfl⟩
  · exact absurd hpub (by simp [gateResult])
  · rcases mainLoop_cases env1 files1 (initState env1) st1 hml1 with
      ⟨hp, _, _, _⟩ | ⟨pid', elems, hp, _, _, hd2, hs2, _⟩
    · rw [show (runResultOf st1).published = st1.published from rfl, hp] at hpub
      simp [initState] at hpub
    · have hpid : pid = pid' := by
        rw [show (runResultOf st1).published = st1.published from rfl, hp] at hpub
        simp [initState] at hpub
        exact hpub
      subst hpid
      have hd : d = st1.data := by
        rw [show (runResultOf st1).saves = st1.saves from rfl, hs2] at hsaves
        simp only [initState, List.nil_append] at hsaves
        injection hsaves with h' _
        exact h'.symm
      have hids2 : initIds env2 = Json.arr (elems ++ [Json.str pid]) := by
        show dictGet (load_published env2.loadRaw) "published_ids" (Json.arr []) = _
        rw [hload]
        show dictGet d "published_ids" (Json.arr []) = _
        rw [hd, hd2]
        rw [dictGet_set_other _ _ _ _ _ (by decide), dictGet_set_self]
      rcases main_ok_cases env2 r2 h2 with ⟨_, rfl⟩ | ⟨_, files2, st2, hl2, hml2, rfl⟩
      · exact ⟨by simp [gateResult], by simp [gateResult]⟩
      · have hskip := mainLoop_skip env2 files2 (initState env2) st2 pid
          (elems ++ [Json.str pid]) hids2 (by simp) hml2
        constructor
        · intro hmem
          have := hskip.1 hmem
          simp [initState] at this
        · intro hmem
          have := hskip.2 hmem
          simp [initState] at this

/-- Witness for C1: run one publishes `a` into an empty ledger and saves
successfully; run two, the next day, loads that ledger and skips `a`. -/
theorem c1_idempotent_rerun_witness :
    main envIdem1 = .ok rIdem1 ∧ "a" ∈ rIdem1.published ∧ rIdem1.saves = [dW] ∧
      envIdem1.save (Json.obj dW) = .ok () ∧ envIdem2.loadRaw = .ok (Json.obj dW) ∧
      initLast envIdem2 ≠ Json.str envIdem2.today ∧ main envIdem2 = .ok rIdem2 ∧
      ("a" ∉ rIdem2.attempts ∧ "a" ∉ rIdem2.published) := by
  have hne : initLast envIdem2 ≠ Json.str envIdem2.today := by
    intro hcon
    injection hcon with h'
    exact absurd h' (by decide)
  have hmem : "a" ∈ rIdem1.published := by decide
  exact ⟨rfl, hmem, rfl, rfl, rfl, hne, rfl,
    c1_idempotent_rerun envIdem1 envIdem2 rIdem1 rIdem2 "a" dW rfl hmem rfl rfl rfl hne rfl⟩

end Publicare
